import Mathlib

/-!
# Verification of the self-concepts kernel (source/python/self_concepts.py)

Shallow embedding of the graph-and-dispatch kernel: `Concept` instances,
`Relationship` edges, the `Ontology` (closed graph) container and the
`Blackboard` (publish/subscribe dispatcher), translated from the Python
source.

Modelling conventions:

* Python objects are identified by instance identity.  A `Concept` instance
  (of any subclass) is modelled as an `Obj`, a natural-number identity
  together with its runtime class.  Default Python `==` on these objects is
  identity, modelled as decidable equality on `Obj`.  Instance names and
  property sets are carried by the Python objects but never read by any of
  the operations modelled here, so they are not part of `Obj`.
* The relevant class hierarchy is closed: `Concept` is the root;
  `Property`, `Relationship`, `Ontology`, `Blackboard` and `Agent` are its
  direct subclasses; `IntC` stands for a class that is not a subclass of
  `Concept` (such as Python's `int`).
* A Python value that may be either a `Concept` instance or a class object
  (a "category") is a `PyVal`.
* Python `set`s of user-supplied objects are modelled as `List`s with
  identity-based membership; every `add` in the source is guarded by a
  membership test, so no duplicates arise from those paths.  `set`s of
  relationship records freshly created by the Blackboard are `List`s where
  `set.add` of a fresh object is `++ [r]`; removals in the source are always
  driven by structural field scans, which the list operations mirror.
* A Python method that mutates `self` and may raise is translated to a
  function returning the possibly-mutated state together with an optional
  error message (the `SelfException` reason string), so that partial
  mutation before a raise is representable.  Signals sent to agents are
  returned as an explicit log.
-/

/-- The closed class hierarchy of the kernel.  `IntC` models a class that is
not a subclass of `Concept` (e.g. `int`). -/
inductive PyClass where
  | ConceptC
  | PropertyC
  | RelationshipC
  | OntologyC
  | BlackboardC
  | AgentC
  | IntC
deriving DecidableEq, Repr

/-- Python `issubclass` restricted to the closed hierarchy: every kernel
class other than `IntC` is a direct subclass of `Concept`. -/
def subclassB (a b : PyClass) : Bool :=
  a == b ||
    (match a with
     | .PropertyC | .RelationshipC | .OntologyC | .BlackboardC | .AgentC => b == PyClass.ConceptC
     | _ => false)

/-- A Python `Concept` instance: an identity together with its runtime
class. -/
structure Obj where
  id : Nat
  cls : PyClass
deriving DecidableEq, Repr

/-- Python `isinstance(o, K)` for a `Concept`-hierarchy instance `o`. -/
def isinstanceB (o : Obj) (K : PyClass) : Bool :=
  subclassB o.cls K

/-- A Python value that may stand at a relationship edge or be passed as a
concept-class argument: either a `Concept` instance or a class object. -/
inductive PyVal where
  | obj : Obj → PyVal
  | cls : PyClass → PyVal
deriving DecidableEq, Repr

/-- Python `isinstance(o, v)` where `v` is an arbitrary value: true when `v`
is a class and `o`'s class is a subclass of it.  (When `v` is an instance,
CPython raises `TypeError`; in every state reachable through the Blackboard
operations the second argument is a registered class, so the `false` branch
is never taken there.) -/
def isinstVal (o : Obj) (v : PyVal) : Bool :=
  match v with
  | .obj _ => false
  | .cls K => subclassB o.cls K

-- ## Ontology (the spec's Graph)

/-- A user-constructed `Relationship` instance: identity, name and the two
edges, each a `Concept` instance or a class (category).  The edge property
sets are never read by the Ontology operations and are omitted. -/
structure Relationship where
  id : Nat
  name : String
  edge1 : PyVal
  edge2 : PyVal
deriving DecidableEq, Repr

/-- The `Ontology` state: its name, member concepts and member
relationships (both identity-based sets). -/
structure Ontology where
  name : String
  concepts : List Obj
  relationships : List Relationship
deriving DecidableEq, Repr

/-- Result of a mutating Ontology operation: optional raised error message
plus the state after the call (faithful to in-place mutation under
exceptions). -/
structure ORes where
  err : Option String
  st : Ontology
deriving DecidableEq, Repr

/-- Python `edge in self._concepts`: an edge value is a member of the
concept set exactly when it is an instance that is a member; a class object
is never equal to any member instance. -/
def memConcepts (cs : List Obj) (v : PyVal) : Bool :=
  match v with
  | .obj c => cs.contains c
  | .cls _ => false

/-- `Ontology.addConcept`: add a concept after the well-formedness and
duplicate checks. -/
def Ontology.addConcept (self : Ontology) (concept : Obj) : ORes :=
  if isinstanceB concept .ConceptC then
    if self.concepts.contains concept = false then
      ⟨none, { self with concepts := self.concepts ++ [concept] }⟩
    else
      ⟨some "Concept already exists", self⟩
  else
    ⟨some "Concept is not well-formed", self⟩

/-- `Ontology.conceptIsBound`: scan the resident relationships for an edge
equal (by identity) to the concept; raises when the argument is not a
`Concept` instance. -/
def Ontology.conceptIsBound (self : Ontology) (concept : Obj) : Except String Bool :=
  if isinstanceB concept .ConceptC then
    .ok (self.relationships.any (fun r =>
      r.edge1 == PyVal.obj concept || r.edge2 == PyVal.obj concept))
  else
    .error "Concept is not well-formed"

/-- `Ontology.removeConcept`: refuse when the concept is bound, otherwise
remove it from the concept set (error when absent). -/
def Ontology.removeConcept (self : Ontology) (concept : Obj) : ORes :=
  match self.conceptIsBound concept with
  | .error e => ⟨some e, self⟩
  | .ok true => ⟨some "Concept is bound", self⟩
  | .ok false =>
    if self.concepts.contains concept then
      ⟨none, { self with concepts := self.concepts.erase concept }⟩
    else
      ⟨some "Concept does not exist", self⟩

/-- The check loop of `Ontology.removeAllConcepts`: raise on the first
member that is bound (or not well-formed), before any mutation. -/
def checkUnbound (self : Ontology) : List Obj → Except String Unit
  | [] => .ok ()
  | c :: rest =>
    match self.conceptIsBound c with
    | .error e => .error e
    | .ok true => .error "Concept is bound"
    | .ok false => checkUnbound self rest

/-- `Ontology.removeAllConcepts`: all member concepts are checked for
boundness before the set is cleared, so a failure leaves the state
untouched. -/
def Ontology.removeAllConcepts (self : Ontology) : ORes :=
  match checkUnbound self self.concepts with
  | .error e => ⟨some e, self⟩
  | .ok _ => ⟨none, { self with concepts := [] }⟩

/-- `Ontology.addRelationship`: duplicate check, then the closure check
`relationship.edge1 in self._concepts and relationship.edge2 in
self._concepts` (the well-formedness `isinstance` guard is carried by the
argument type). -/
def Ontology.addRelationship (self : Ontology) (relationship : Relationship) : ORes :=
  if self.relationships.contains relationship = false then
    if memConcepts self.concepts relationship.edge1
        && memConcepts self.concepts relationship.edge2 then
      ⟨none, { self with relationships := self.relationships ++ [relationship] }⟩
    else
      ⟨some "Relationship is not closed", self⟩
  else
    ⟨some "Relationship already exists", self⟩

/-- `Ontology.removeRelationship`. -/
def Ontology.removeRelationship (self : Ontology) (relationship : Relationship) : ORes :=
  if self.relationships.contains relationship then
    ⟨none, { self with relationships := self.relationships.erase relationship }⟩
  else
    ⟨some "Relationship does not exist", self⟩

-- ## Blackboard (the spec's Dispatcher)

/-- A `Relationship` object freshly created by a Blackboard operation
(publication, subscription or notification record).  Such objects are only
ever located again by scanning their fields, so no separate identity is
needed: a list entry stands for one created object. -/
structure BRel where
  name : String
  edge1 : PyVal
  edge2 : PyVal
deriving DecidableEq, Repr

/-- A call `receiver.signal(self, message)` recorded during a Blackboard
operation.  `Agent.signal` only validates its arguments and is otherwise a
no-op, so the log is the whole observable effect. -/
structure Signal where
  receiver : PyVal
  message : BRel
deriving DecidableEq, Repr

/-- The `Blackboard` state: published concepts, publications, concept
subscriptions and concept-class subscriptions. -/
structure Blackboard where
  name : String
  concepts : List Obj
  publications : List BRel
  conceptSubscriptions : List BRel
  classSubscriptions : List BRel
deriving DecidableEq, Repr

/-- Result of a mutating Blackboard operation: optional raised error,
state after the call, and the signals delivered during the call. -/
structure BRes where
  err : Option String
  st : Blackboard
  sigs : List Signal
deriving DecidableEq, Repr

/-- A fresh Blackboard (the constructor with empty collections). -/
def Blackboard.init (nm : String) : Blackboard :=
  ⟨nm, [], [], [], []⟩

/-- `Blackboard.publishConcept`: after the agent/concept well-formedness
and already-published checks, record the publication, signal the publisher,
and for every registered class subscription matching the concept create a
concept subscription and signal its holder (one per matching class
subscription, in registration order, with no duplicate check). -/
def Blackboard.publishConcept (self : Blackboard) (agent : Obj) (concept : Obj) : BRes :=
  if isinstanceB agent .AgentC then
    if isinstanceB concept .ConceptC then
      if self.concepts.contains concept = false then
        let publication : BRel := ⟨"Published Concept", PyVal.obj agent, PyVal.obj concept⟩
        let newSubs : List BRel :=
          (self.classSubscriptions.filter (fun cs => isinstVal concept cs.edge2)).map
            (fun cs => ⟨"Subscribed To Concept Class Instance", cs.edge1, PyVal.obj concept⟩)
        { err := none
          st := { self with
                  concepts := self.concepts ++ [concept]
                  publications := self.publications ++ [publication]
                  conceptSubscriptions := self.conceptSubscriptions ++ newSubs }
          sigs := ⟨PyVal.obj agent, publication⟩ :: newSubs.map (fun s => ⟨s.edge1, s⟩) }
      else
        ⟨some "Concept already exists", self, []⟩
    else
      ⟨some "Concept is not well-formed", self, []⟩
  else
    ⟨some "Agent is not well-formed", self, []⟩

/-- The inner `unpublish` of `Blackboard.unpublishConcept`, for one
concept: locate the publication, remove the concept, signal the publisher
of the withdrawal, then remove and signal every concept subscription
referencing the concept.  When no publication record exists the source
dereferences `None` (an `AttributeError`) after having already removed the
concept from the published set; that partial state is modelled
faithfully. -/
def Blackboard.unpublishOne (self : Blackboard) (concept : Obj) : BRes :=
  if isinstanceB concept .ConceptC then
    if self.concepts.contains concept then
      match self.publications.find? (fun p => p.edge2 == PyVal.obj concept) with
      | none =>
        ⟨some "AttributeError: NoneType has no attribute edge1",
          { self with concepts := self.concepts.erase concept }, []⟩
      | some pub =>
        let unpublication : BRel := ⟨"Unpublished Concept", pub.edge1, pub.edge2⟩
        let toRemove : List BRel :=
          self.conceptSubscriptions.filter (fun s => s.edge2 == PyVal.obj concept)
        { err := none
          st := { self with
                  concepts := self.concepts.erase concept
                  publications := self.publications.erase pub
                  conceptSubscriptions :=
                    self.conceptSubscriptions.filter (fun s => !(s.edge2 == PyVal.obj concept)) }
          sigs := ⟨pub.edge1, unpublication⟩ ::
            toRemove.map (fun s => ⟨s.edge1, ⟨"Unsubscribed From Concept", s.edge1, s.edge2⟩⟩) }
    else
      ⟨some "Concept does not exist", self, []⟩
  else
    ⟨some "Concept is not well-formed", self, []⟩

/-- The no-argument path of `Blackboard.unpublishConcept`: unpublish each
member of a copy of the published set in turn; an exception part-way
through leaves the earlier unpublishes in place. -/
def Blackboard.unpublishAll (self : Blackboard) : List Obj → BRes
  | [] => ⟨none, self, []⟩
  | c :: rest =>
    if (self.unpublishOne c).err = none then
      ⟨((self.unpublishOne c).st.unpublishAll rest).err,
        ((self.unpublishOne c).st.unpublishAll rest).st,
        (self.unpublishOne c).sigs ++ ((self.unpublishOne c).st.unpublishAll rest).sigs⟩
    else
      self.unpublishOne c

/-- `Blackboard.unpublishConcept`: dispatch on whether a concept was
given. -/
def Blackboard.unpublishConcept (self : Blackboard) (concept : Option Obj) : BRes :=
  match concept with
  | none => self.unpublishAll self.concepts
  | some c => self.unpublishOne c

/-- `Blackboard.publisher`: return the publishing agent of the concept
(the first publication record whose second edge is the concept). -/
def Blackboard.publisher (self : Blackboard) (concept : Obj) : Except String PyVal :=
  if isinstanceB concept .ConceptC then
    if self.concepts.contains concept then
      match self.publications.find? (fun p => p.edge2 == PyVal.obj concept) with
      | some p => .ok p.edge1
      | none => .error "Concept does not exist"
    else
      .error "Concept does not exist"
  else
    .error "Concept is not well-formed"

/-- `Blackboard.subscribers`: the agents holding a subscription to the
concept (all subscribed agents when no concept is given).  The source
collects them into a set; the list returned here has the same members. -/
def Blackboard.subscribers (self : Blackboard) (concept : Option Obj) : Except String (List PyVal) :=
  match concept with
  | none => .ok (self.conceptSubscriptions.map (fun s => s.edge1))
  | some c =>
    if isinstanceB c .ConceptC then
      if self.concepts.contains c then
        .ok ((self.conceptSubscriptions.filter (fun s => s.edge2 == PyVal.obj c)).map
              (fun s => s.edge1))
      else
        .error "Concept does not exist"
    else
      .error "Concept is not well-formed"

/-- `Blackboard.subscribeToConcept`: well-formedness and existence checks,
refusal when the (agent, concept) pairing already exists, then record the
subscription and signal the agent. -/
def Blackboard.subscribeToConcept (self : Blackboard) (agent : Obj) (concept : Obj) : BRes :=
  if isinstanceB agent .AgentC then
    if isinstanceB concept .ConceptC then
      if self.concepts.contains concept then
        if self.conceptSubscriptions.any (fun s =>
            s.edge1 == PyVal.obj agent && s.edge2 == PyVal.obj concept) then
          ⟨some "Agent is already subscribed", self, []⟩
        else
          let subscription : BRel := ⟨"Subscribed To Concept", PyVal.obj agent, PyVal.obj concept⟩
          ⟨none,
            { self with conceptSubscriptions := self.conceptSubscriptions ++ [subscription] },
            [⟨PyVal.obj agent, subscription⟩]⟩
      else
        ⟨some "Concept does not exist", self, []⟩
    else
      ⟨some "Concept is not well-formed", self, []⟩
  else
    ⟨some "Agent is not well-formed", self, []⟩

/-- `Blackboard.unsubscribeFromConcept`: four-way selector.  The source
collects the pairings to withdraw (signalling each holder as it goes) and
removes them from the subscription set at the end; with both arguments
given only the first matching pairing is withdrawn. -/
def Blackboard.unsubscribeFromConcept (self : Blackboard)
    (agent : Option Obj) (concept : Option Obj) : BRes :=
  match concept with
  | none =>
    match agent with
    | none =>
      ⟨none,
        { self with conceptSubscriptions := [] },
        self.conceptSubscriptions.map (fun s =>
          ⟨s.edge1, ⟨"Unsubscribed From Concept", s.edge1, s.edge2⟩⟩)⟩
    | some a =>
      if isinstanceB a .AgentC then
        ⟨none,
          { self with conceptSubscriptions :=
              self.conceptSubscriptions.filter (fun s => !(s.edge1 == PyVal.obj a)) },
          (self.conceptSubscriptions.filter (fun s => s.edge1 == PyVal.obj a)).map (fun s =>
            ⟨s.edge1, ⟨"Unsubscribed from Concept", s.edge1, s.edge2⟩⟩)⟩
      else
        ⟨some "Agent is not well-formed", self, []⟩
  | some c =>
    if isinstanceB c .ConceptC then
      if self.concepts.contains c then
        match agent with
        | none =>
          ⟨none,
            { self with conceptSubscriptions :=
                self.conceptSubscriptions.filter (fun s => !(s.edge2 == PyVal.obj c)) },
            (self.conceptSubscriptions.filter (fun s => s.edge2 == PyVal.obj c)).map (fun s =>
              ⟨s.edge1, ⟨"Unsubscribed from Concept", s.edge1, s.edge2⟩⟩)⟩
        | some a =>
          if isinstanceB a .AgentC then
            match self.conceptSubscriptions.find? (fun s =>
                s.edge1 == PyVal.obj a && s.edge2 == PyVal.obj c) with
            | none => ⟨none, self, []⟩
            | some s =>
              ⟨none,
                { self with conceptSubscriptions := self.conceptSubscriptions.erase s },
                [⟨s.edge1, ⟨"Unsubscribed From Concept", s.edge1, s.edge2⟩⟩]⟩
          else
            ⟨some "Agent is not well-formed", self, []⟩
      else
        ⟨some "Concept does not exist", self, []⟩
    else
      ⟨some "Concept is not well-formed", self, []⟩

/-- `Blackboard.subscribeToConceptClass`: agent check, then
`issubclass(conceptClass, Concept)`.  When the argument is not a class the
`issubclass` call raises `TypeError`, caught and re-raised as
not-well-formed; when it is a class that is not a subclass of `Concept`
the `if` has no `else`, so the call silently returns with no state
change. -/
def Blackboard.subscribeToConceptClass (self : Blackboard)
    (agent : Obj) (conceptClass : PyVal) : BRes :=
  if isinstanceB agent .AgentC then
    match conceptClass with
    | .obj _ => ⟨some "Concept class is not well-formed", self, []⟩
    | .cls K =>
      if subclassB K .ConceptC then
        if self.classSubscriptions.any (fun s =>
            s.edge1 == PyVal.obj agent && s.edge2 == PyVal.cls K) then
          ⟨some "Agent is already subscribed", self, []⟩
        else
          let classSubscription : BRel :=
            ⟨"Subscribed To Concept Class", PyVal.obj agent, PyVal.cls K⟩
          ⟨none,
            { self with classSubscriptions := self.classSubscriptions ++ [classSubscription] },
            [⟨PyVal.obj agent, classSubscription⟩]⟩
      else
        ⟨none, self, []⟩
  else
    ⟨some "Agent is not well-formed", self, []⟩

/-- `Blackboard.unsubscribeFromConceptClass`: four-way selector over the
class subscriptions.  The whole `conceptClass`-given branch runs inside a
bare `except:` that re-raises any failure (including the agent
well-formedness one) as "Concept class is not well-formed". -/
def Blackboard.unsubscribeFromConceptClass (self : Blackboard)
    (agent : Option Obj) (conceptClass : Option PyVal) : BRes :=
  match conceptClass with
  | none =>
    match agent with
    | none =>
      ⟨none,
        { self with classSubscriptions := [] },
        self.classSubscriptions.map (fun s =>
          ⟨s.edge1, ⟨"Unsubscribed From Concept Class", s.edge1, s.edge2⟩⟩)⟩
    | some a =>
      if isinstanceB a .AgentC then
        ⟨none,
          { self with classSubscriptions :=
              self.classSubscriptions.filter (fun s => !(s.edge1 == PyVal.obj a)) },
          (self.classSubscriptions.filter (fun s => s.edge1 == PyVal.obj a)).map (fun s =>
            ⟨s.edge1, ⟨"Unsubscribed from Concept Class", s.edge1, s.edge2⟩⟩)⟩
      else
        ⟨some "Agent is not well-formed", self, []⟩
  | some v =>
    match v with
    | .obj _ => ⟨some "Concept class is not well-formed", self, []⟩
    | .cls K =>
      if subclassB K .ConceptC then
        match agent with
        | none =>
          ⟨none,
            { self with classSubscriptions :=
                self.classSubscriptions.filter (fun s => !(s.edge2 == PyVal.cls K)) },
            (self.classSubscriptions.filter (fun s => s.edge2 == PyVal.cls K)).map (fun s =>
              ⟨s.edge1, ⟨"Unsubscribed from concept class", s.edge1, s.edge2⟩⟩)⟩
        | some a =>
          if isinstanceB a .AgentC then
            match self.classSubscriptions.find? (fun s =>
                s.edge1 == PyVal.obj a && s.edge2 == PyVal.cls K) with
            | none => ⟨none, self, []⟩
            | some s =>
              ⟨none,
                { self with classSubscriptions := self.classSubscriptions.erase s },
                [⟨s.edge1, ⟨"Unsubscribed from concept class", s.edge1, s.edge2⟩⟩]⟩
          else
            ⟨some "Concept class is not well-formed", self, []⟩
      else
        ⟨some "Concept class is not well-formed", self, []⟩

-- ## Operation sequences and reachability

/-- One invocation of a public mutating Blackboard operation. -/
inductive BOp where
  | publish (agent concept : Obj)
  | unpublish (concept : Option Obj)
  | subscribe (agent concept : Obj)
  | unsubscribe (agent : Option Obj) (concept : Option Obj)
  | subscribeClass (agent : Obj) (conceptClass : PyVal)
  | unsubscribeClass (agent : Option Obj) (conceptClass : Option PyVal)
deriving DecidableEq, Repr

/-- Apply one public operation to the state. -/
def Blackboard.applyOp (self : Blackboard) : BOp → BRes
  | .publish a c => self.publishConcept a c
  | .unpublish c => self.unpublishConcept c
  | .subscribe a c => self.subscribeToConcept a c
  | .unsubscribe a c => self.unsubscribeFromConcept a c
  | .subscribeClass a k => self.subscribeToConceptClass a k
  | .unsubscribeClass a k => self.unsubscribeFromConceptClass a k

/-- Run a sequence of public operations from a state, keeping the state a
failed call leaves behind (callers may catch the exception and go on). -/
def runOps (s : Blackboard) : List BOp → Blackboard
  | [] => s
  | op :: rest => runOps (s.applyOp op).st rest

/-- A Blackboard state reachable from a fresh Blackboard through the
public operations. -/
inductive Reachable : Blackboard → Prop where
  | init (nm : String) : Reachable (Blackboard.init nm)
  | step {s : Blackboard} (op : BOp) : Reachable s → Reachable (s.applyOp op).st

-- ## Derived counts and the Blackboard invariant

/-- Number of publication records naming the concept. -/
def pubCount (s : Blackboard) (c : Obj) : Nat :=
  s.publications.countP (fun p => p.edge2 == PyVal.obj c)

/-- Number of concept-subscription records pairing the agent with the
concept. -/
def subCount (s : Blackboard) (a c : Obj) : Nat :=
  s.conceptSubscriptions.countP (fun r =>
    r.edge1 == PyVal.obj a && r.edge2 == PyVal.obj c)

/-- Number of class subscriptions held by the agent whose category matches
the concept (the pairings `publishConcept` turns into auto-subscriptions). -/
def matchCount (s : Blackboard) (a c : Obj) : Nat :=
  s.classSubscriptions.countP (fun r =>
    r.edge1 == PyVal.obj a && isinstVal c r.edge2)

/-- Structural invariant of Blackboard states reachable through the public
operations: the published set has no duplicates and only well-formed
concepts, every concept subscription names a published concept, and the
publication records are in bijection with the published set (present for
every published concept, never for anything else, at most one each). -/
structure BInv (s : Blackboard) : Prop where
  nodup : s.concepts.Nodup
  conceptsWF : ∀ c ∈ s.concepts, isinstanceB c .ConceptC = true
  subPub : ∀ r ∈ s.conceptSubscriptions, ∃ c ∈ s.concepts, r.edge2 = PyVal.obj c
  pubMem : ∀ p ∈ s.publications, ∃ c ∈ s.concepts, p.edge2 = PyVal.obj c
  pubEx : ∀ c ∈ s.concepts, ∃ p ∈ s.publications, p.edge2 = PyVal.obj c
  pubUnique : ∀ c : Obj, pubCount s c ≤ 1

/-- Transport of the invariant across states with equal relevant fields. -/
theorem BInv.transport {s t : Blackboard} (h : BInv s)
    (hc : t.concepts = s.concepts) (hp : t.publications = s.publications)
    (hs : t.conceptSubscriptions = s.conceptSubscriptions) : BInv t := by
  constructor
  · rw [hc]; exact h.nodup
  · rw [hc]; exact h.conceptsWF
  · rw [hs, hc]; exact h.subPub
  · rw [hp, hc]; exact h.pubMem
  · rw [hc, hp]; exact h.pubEx
  · intro c; unfold pubCount; rw [hp]; exact h.pubUnique c

/-- The invariant survives any shrinking of the concept-subscription set
that leaves the other collections alone. -/
theorem BInv.shrinkSubs {s t : Blackboard} (h : BInv s)
    (hc : t.concepts = s.concepts) (hp : t.publications = s.publications)
    (hs : ∀ r ∈ t.conceptSubscriptions, r ∈ s.conceptSubscriptions) : BInv t := by
  constructor
  · rw [hc]; exact h.nodup
  · rw [hc]; exact h.conceptsWF
  · intro r hr
    rw [hc]
    exact h.subPub r (hs r hr)
  · rw [hp, hc]; exact h.pubMem
  · rw [hc, hp]; exact h.pubEx
  · intro c; unfold pubCount; rw [hp]; exact h.pubUnique c

/-- A fresh Blackboard satisfies the invariant. -/
theorem BInv.ofInit (nm : String) : BInv (Blackboard.init nm) := by
  constructor <;> simp [Blackboard.init, pubCount]

-- ## Auxiliary counting lemmas

/-- Two members both satisfying a predicate that holds at most once in the
list are the same element. -/
theorem countP_le_one_eq {α : Type} [DecidableEq α] {p : α → Bool} {l : List α}
    (h : l.countP p ≤ 1)
    {x y : α} (hx : x ∈ l) (hy : y ∈ l) (hpx : p x = true) (hpy : p y = true) : x = y := by
  by_contra hne
  have hxf : x ∈ l.filter p := List.mem_filter.mpr ⟨hx, hpx⟩
  have hyf : y ∈ l.filter p := List.mem_filter.mpr ⟨hy, hpy⟩
  have hy2 : y ∈ (l.filter p).erase x := (List.mem_erase_of_ne (Ne.symm hne)).mpr hyf
  have hlen : ((l.filter p).erase x).length = (l.filter p).length - 1 :=
    List.length_erase_of_mem hxf
  have h1 : 0 < ((l.filter p).erase x).length := List.length_pos_of_mem hy2
  have h2 : 0 < (l.filter p).length := List.length_pos_of_mem hxf
  rw [List.countP_eq_length_filter] at h
  omega

/-- Erasing the unique element satisfying a predicate leaves no
satisfying element. -/
theorem countP_erase_eq_zero {α : Type} [DecidableEq α] {p : α → Bool} {l : List α} {x : α}
    (h : l.countP p ≤ 1) (hx : x ∈ l) (hpx : p x = true) : (l.erase x).countP p = 0 := by
  obtain ⟨l₁, l₂, _, hl, he⟩ := List.exists_erase_eq hx
  rw [he]
  rw [hl] at h
  rw [List.countP_append] at h ⊢
  rw [List.countP_cons_of_pos _ _ hpx] at h
  omega

-- ## Invariant preservation

/-- `List.contains = false` means non-membership (decidable equality). -/
theorem contains_false_not_mem {α : Type} [DecidableEq α] {l : List α} {a : α}
    (h : l.contains a = false) : a ∉ l := by
  intro hm
  simp only [List.contains_eq_any_beq, List.any_eq_false, beq_iff_eq] at h
  exact h a hm rfl

/-- `List.contains = true` means membership (decidable equality). -/
theorem contains_true_mem {α : Type} [DecidableEq α] {l : List α} {a : α}
    (h : l.contains a = true) : a ∈ l := by
  simp only [List.contains_eq_any_beq, List.any_eq_true, beq_iff_eq] at h
  obtain ⟨x, hx, he⟩ := h
  rwa [← he] at hx

/-- `publishConcept` preserves the invariant. -/
theorem BInv.publish {s : Blackboard} (h : BInv s) (a c : Obj) :
    BInv (s.publishConcept a c).st := by
  unfold Blackboard.publishConcept
  split
  · split
    · split
      · next ha hc hmem =>
        have hcm : c ∉ s.concepts := contains_false_not_mem hmem
        constructor
        · simp only [List.nodup_append, List.nodup_cons, List.not_mem_nil, not_false_iff,
            List.nodup_nil, and_true, true_and]
          refine ⟨h.nodup, ?_⟩
          intro x hx hx2
          simp only [List.mem_singleton] at hx2
          subst hx2
          exact hcm hx
        · intro x hx
          rcases List.mem_append.mp hx with hx | hx
          · exact h.conceptsWF x hx
          · simp only [List.mem_singleton] at hx
            subst hx
            exact hc
        · intro r hr
          rcases List.mem_append.mp hr with hr | hr
          · obtain ⟨c', hc', he⟩ := h.subPub r hr
            exact ⟨c', List.mem_append.mpr (Or.inl hc'), he⟩
          · obtain ⟨cs, _, he⟩ := List.mem_map.mp hr
            exact ⟨c, List.mem_append.mpr (Or.inr (List.mem_singleton.mpr rfl)), by rw [← he]⟩
        · intro p hp
          rcases List.mem_append.mp hp with hp | hp
          · obtain ⟨c', hc', he⟩ := h.pubMem p hp
            exact ⟨c', List.mem_append.mpr (Or.inl hc'), he⟩
          · simp only [List.mem_singleton] at hp
            subst hp
            exact ⟨c, List.mem_append.mpr (Or.inr (List.mem_singleton.mpr rfl)), rfl⟩
        · intro c' hc'
          rcases List.mem_append.mp hc' with hc' | hc'
          · obtain ⟨p, hp, he⟩ := h.pubEx c' hc'
            exact ⟨p, List.mem_append.mpr (Or.inl hp), he⟩
          · simp only [List.mem_singleton] at hc'
            subst hc'
            exact ⟨⟨"Published Concept", PyVal.obj a, PyVal.obj c'⟩,
              List.mem_append.mpr (Or.inr (List.mem_singleton.mpr rfl)), rfl⟩
        · intro x
          unfold pubCount
          simp only [List.countP_append]
          by_cases hxc : x = c
          · subst hxc
            have h0 : pubCount s x = 0 := by
              unfold pubCount
              rw [List.countP_eq_zero]
              intro p hp hpx
              obtain ⟨c', hc', he⟩ := h.pubMem p hp
              rw [he] at hpx
              simp only [beq_iff_eq, PyVal.obj.injEq] at hpx
              subst hpx
              exact hcm hc'
            unfold pubCount at h0
            rw [h0]
            simp [List.countP_cons]
          · have : (PyVal.obj c == PyVal.obj x) = false := by
              simp only [beq_eq_false_iff_ne, ne_eq, PyVal.obj.injEq]
              exact fun he => hxc he.symm
            simp only [List.countP_cons, List.countP_nil, this]
            simpa using h.pubUnique x
      · next => exact h.transport rfl rfl rfl
    · next => exact h.transport rfl rfl rfl
  · next => exact h.transport rfl rfl rfl

/-- The single-concept unpublish path preserves the invariant. -/
theorem BInv.unpublishOne {s : Blackboard} (h : BInv s) (c : Obj) :
    BInv (s.unpublishOne c).st := by
  unfold Blackboard.unpublishOne
  split
  · split
    · next hwf hmem =>
      have hcm : c ∈ s.concepts := contains_true_mem hmem
      split
      · next hfind =>
        exfalso
        obtain ⟨p, hp, he⟩ := h.pubEx c hcm
        rw [List.find?_eq_none] at hfind
        exact hfind p hp (by simp [he])
      · next pub hfind =>
        have hpubmem : pub ∈ s.publications := List.mem_of_find?_eq_some hfind
        have hpubeq : pub.edge2 = PyVal.obj c := by
          have := List.find?_some hfind
          simpa using this
        constructor
        · exact h.nodup.erase c
        · intro x hx
          exact h.conceptsWF x (List.mem_of_mem_erase hx)
        · intro r hr
          have hrs : r ∈ s.conceptSubscriptions := (List.mem_filter.mp hr).1
          have hcond : (r.edge2 == PyVal.obj c) = false := by
            have := (List.mem_filter.mp hr).2
            simpa using this
          obtain ⟨c', hc', he⟩ := h.subPub r hrs
          have hne : c' ≠ c := by
            intro hcc
            subst hcc
            rw [he] at hcond
            simp at hcond
          exact ⟨c', (h.nodup.mem_erase_iff).mpr ⟨hne, hc'⟩, he⟩
        · intro p hp
          have hps : p ∈ s.publications := List.mem_of_mem_erase hp
          obtain ⟨c', hc', he⟩ := h.pubMem p hps
          have hne : c' ≠ c := by
            intro hcc
            subst hcc
            have hzero : ((s.publications.erase pub).countP
                (fun p => p.edge2 == PyVal.obj c')) = 0 :=
              countP_erase_eq_zero (h.pubUnique c') hpubmem (by simp [hpubeq])
            rw [List.countP_eq_zero] at hzero
            exact hzero p hp (by simp [he])
          exact ⟨c', (h.nodup.mem_erase_iff).mpr ⟨hne, hc'⟩, he⟩
        · intro c' hc'
          obtain ⟨hne, hc'm⟩ := (h.nodup.mem_erase_iff).mp hc'
          obtain ⟨p, hp, he⟩ := h.pubEx c' hc'm
          have hpne : p ≠ pub := by
            intro hpp
            subst hpp
            rw [he] at hpubeq
            simp only [PyVal.obj.injEq] at hpubeq
            exact hne hpubeq
          exact ⟨p, (List.mem_erase_of_ne hpne).mpr hp, he⟩
        · intro x
          exact le_trans
            (List.Sublist.countP_le _ (List.erase_sublist pub s.publications))
            (h.pubUnique x)
    · next => exact h.transport rfl rfl rfl
  · next => exact h.transport rfl rfl rfl

/-- The unpublish-everything path preserves the invariant. -/
theorem BInv.unpublishAll {s : Blackboard} (h : BInv s) (l : List Obj) :
    BInv (s.unpublishAll l).st := by
  induction l generalizing s with
  | nil => exact h
  | cons c rest ih =>
    unfold Blackboard.unpublishAll
    split
    · exact ih (h.unpublishOne c)
    · exact h.unpublishOne c

/-- `unpublishConcept` preserves the invariant. -/
theorem BInv.unpublish {s : Blackboard} (h : BInv s) (c : Option Obj) :
    BInv (s.unpublishConcept c).st := by
  cases c with
  | none => exact h.unpublishAll s.concepts
  | some c => exact h.unpublishOne c

/-- `subscribeToConcept` preserves the invariant. -/
theorem BInv.subscribe {s : Blackboard} (h : BInv s) (a c : Obj) :
    BInv (s.subscribeToConcept a c).st := by
  unfold Blackboard.subscribeToConcept
  split
  · split
    · split
      · next hmem =>
        split
        · exact h.transport rfl rfl rfl
        · constructor
          · exact h.nodup
          · exact h.conceptsWF
          · intro r hr
            rcases List.mem_append.mp hr with hr | hr
            · exact h.subPub r hr
            · simp only [List.mem_singleton] at hr
              subst hr
              exact ⟨c, contains_true_mem hmem, rfl⟩
          · exact h.pubMem
          · exact h.pubEx
          · exact h.pubUnique
      · exact h.transport rfl rfl rfl
    · exact h.transport rfl rfl rfl
  · exact h.transport rfl rfl rfl

/-- `unsubscribeFromConcept` preserves the invariant. -/
theorem BInv.unsubscribe {s : Blackboard} (h : BInv s) (a c : Option Obj) :
    BInv (s.unsubscribeFromConcept a c).st := by
  unfold Blackboard.unsubscribeFromConcept
  cases c with
  | none =>
    cases a with
    | none => exact h.shrinkSubs rfl rfl (by simp)
    | some a =>
      dsimp only
      split
      · exact h.shrinkSubs rfl rfl (fun r hr => (List.mem_filter.mp hr).1)
      · exact h.transport rfl rfl rfl
  | some c =>
    dsimp only
    split
    · split
      · cases a with
        | none => exact h.shrinkSubs rfl rfl (fun r hr => (List.mem_filter.mp hr).1)
        | some a =>
          dsimp only
          split
          · split
            · exact h.transport rfl rfl rfl
            · exact h.shrinkSubs rfl rfl (fun r hr => List.mem_of_mem_erase hr)
          · exact h.transport rfl rfl rfl
      · exact h.transport rfl rfl rfl
    · exact h.transport rfl rfl rfl

/-- `subscribeToConceptClass` preserves the invariant (it touches only the
class subscriptions). -/
theorem BInv.subscribeClass {s : Blackboard} (h : BInv s) (a : Obj) (k : PyVal) :
    BInv (s.subscribeToConceptClass a k).st := by
  unfold Blackboard.subscribeToConceptClass
  split
  · cases k with
    | obj o => exact h.transport rfl rfl rfl
    | cls K =>
      dsimp only
      split
      · split
        · exact h.transport rfl rfl rfl
        · exact h.transport rfl rfl rfl
      · exact h.transport rfl rfl rfl
  · exact h.transport rfl rfl rfl

/-- `unsubscribeFromConceptClass` preserves the invariant (it touches only
the class subscriptions). -/
theorem BInv.unsubscribeClass {s : Blackboard} (h : BInv s) (a : Option Obj) (k : Option PyVal) :
    BInv (s.unsubscribeFromConceptClass a k).st := by
  unfold Blackboard.unsubscribeFromConceptClass
  cases k with
  | none =>
    cases a with
    | none => exact h.transport rfl rfl rfl
    | some a =>
      dsimp only
      split
      · exact h.transport rfl rfl rfl
      · exact h.transport rfl rfl rfl
  | some v =>
    cases v with
    | obj o => exact h.transport rfl rfl rfl
    | cls K =>
      dsimp only
      split
      · cases a with
        | none => exact h.transport rfl rfl rfl
        | some a =>
          dsimp only
          split
          · split
            · exact h.transport rfl rfl rfl
            · exact h.transport rfl rfl rfl
          · exact h.transport rfl rfl rfl
      · exact h.transport rfl rfl rfl

/-- Every public operation preserves the invariant. -/
theorem BInv.applyOp {s : Blackboard} (h : BInv s) (op : BOp) :
    BInv (s.applyOp op).st := by
  cases op with
  | publish a c => exact h.publish a c
  | unpublish c => exact h.unpublish c
  | subscribe a c => exact h.subscribe a c
  | unsubscribe a c => exact h.unsubscribe a c
  | subscribeClass a k => exact h.subscribeClass a k
  | unsubscribeClass a k => exact h.unsubscribeClass a k

/-- Every reachable Blackboard state satisfies the structural invariant. -/
theorem reachable_inv {s : Blackboard} (h : Reachable s) : BInv s := by
  induction h with
  | init nm => exact BInv.ofInit nm
  | step op _ ih => exact ih.applyOp op

-- ## Concept-subscription shape lemmas

/-- Unpublishing one concept never adds concept subscriptions. -/
theorem unpublishOne_subs_sublist (s : Blackboard) (c : Obj) :
    (s.unpublishOne c).st.conceptSubscriptions.Sublist s.conceptSubscriptions := by
  unfold Blackboard.unpublishOne
  split
  · split
    · split
      · exact List.Sublist.refl _
      · exact List.filter_sublist _
    · exact List.Sublist.refl _
  · exact List.Sublist.refl _

/-- Unpublishing a list of concepts never adds concept subscriptions. -/
theorem unpublishAll_subs_sublist (s : Blackboard) (l : List Obj) :
    (s.unpublishAll l).st.conceptSubscriptions.Sublist s.conceptSubscriptions := by
  induction l generalizing s with
  | nil => exact List.Sublist.refl _
  | cons c rest ih =>
    unfold Blackboard.unpublishAll
    split
    · exact List.Sublist.trans (ih (s.unpublishOne c).st) (unpublishOne_subs_sublist s c)
    · exact unpublishOne_subs_sublist s c

/-- Unsubscribing never adds concept subscriptions. -/
theorem unsubscribe_subs_sublist (s : Blackboard) (a c : Option Obj) :
    (s.unsubscribeFromConcept a c).st.conceptSubscriptions.Sublist s.conceptSubscriptions := by
  unfold Blackboard.unsubscribeFromConcept
  cases c with
  | none =>
    cases a with
    | none => exact List.nil_sublist _
    | some a =>
      dsimp only
      split
      · exact List.filter_sublist _
      · exact List.Sublist.refl _
  | some c =>
    dsimp only
    split
    · split
      · cases a with
        | none => exact List.filter_sublist _
        | some a =>
          dsimp only
          split
          · split
            · exact List.Sublist.refl _
            · exact List.erase_sublist _ _
          · exact List.Sublist.refl _
      · exact List.Sublist.refl _
    · exact List.Sublist.refl _

/-- Class subscription changes leave the concept subscriptions alone. -/
theorem subscribeClass_subs_eq (s : Blackboard) (a : Obj) (k : PyVal) :
    (s.subscribeToConceptClass a k).st.conceptSubscriptions = s.conceptSubscriptions := by
  unfold Blackboard.subscribeToConceptClass
  split
  · cases k with
    | obj o => rfl
    | cls K =>
      dsimp only
      split
      · split
        · rfl
        · rfl
      · rfl
  · rfl

/-- Class unsubscription leaves the concept subscriptions alone. -/
theorem unsubscribeClass_subs_eq (s : Blackboard) (a : Option Obj) (k : Option PyVal) :
    (s.unsubscribeFromConceptClass a k).st.conceptSubscriptions = s.conceptSubscriptions := by
  unfold Blackboard.unsubscribeFromConceptClass
  cases k with
  | none =>
    cases a with
    | none => rfl
    | some a =>
      dsimp only
      split
      · rfl
      · rfl
  | some v =>
    cases v with
    | obj o => rfl
    | cls K =>
      dsimp only
      split
      · cases a with
        | none => rfl
        | some a =>
          dsimp only
          split
          · split
            · rfl
            · rfl
          · rfl
      · rfl

-- ## At-most-one concept subscription per (agent, concept)

/-- Every agent holds at most one subscription to each concept. -/
def SubUnique (s : Blackboard) : Prop := ∀ a c : Obj, subCount s a c ≤ 1

/-- Side condition on an operation: a publish must happen while every agent
holds at most one class subscription matching the published concept (the
source creates one auto-subscription per matching class subscription,
without deduplication). -/
def GoodOp (s : Blackboard) : BOp → Prop
  | .publish _ c => ∀ a : Obj, matchCount s a c ≤ 1
  | _ => True

/-- Reachability through the public operations where every publish obeys
the `GoodOp` side condition. -/
inductive ReachableG : Blackboard → Prop where
  | init (nm : String) : ReachableG (Blackboard.init nm)
  | step {s : Blackboard} (op : BOp) : ReachableG s → GoodOp s op → ReachableG (s.applyOp op).st

/-- Guarded reachability implies reachability. -/
theorem reachableG_reachable {s : Blackboard} (h : ReachableG s) : Reachable s := by
  induction h with
  | init nm => exact Reachable.init nm
  | step op _ _ ih => exact Reachable.step op ih

/-- A publish keeps subscriptions unique provided no agent holds two class
subscriptions matching the published concept. -/
theorem subUnique_publish {s : Blackboard} (hInv : BInv s) (hU : SubUnique s) (b c : Obj)
    (hG : ∀ a : Obj, matchCount s a c ≤ 1) :
    SubUnique (s.publishConcept b c).st := by
  intro a x
  have hbase := hU a x
  unfold Blackboard.publishConcept
  split
  · split
    · split
      · next hmem =>
        have hcm : c ∉ s.concepts := contains_false_not_mem hmem
        unfold subCount at hbase ⊢
        dsimp only
        rw [List.countP_append]
        by_cases hxc : x = c
        · subst hxc
          have h0 : s.conceptSubscriptions.countP
              (fun r => r.edge1 == PyVal.obj a && r.edge2 == PyVal.obj x) = 0 := by
            rw [List.countP_eq_zero]
            intro r hr hpr
            obtain ⟨c', hc', he⟩ := hInv.subPub r hr
            rw [Bool.and_eq_true] at hpr
            have he2 : r.edge2 = PyVal.obj x := by
              have := hpr.2
              simpa using this
            rw [he] at he2
            injection he2 with he3
            subst he3
            exact hcm hc'
          rw [h0]
          have hnew : (List.map
              (fun cs => BRel.mk "Subscribed To Concept Class Instance" cs.edge1 (PyVal.obj x))
              (List.filter (fun cs => isinstVal x cs.edge2) s.classSubscriptions)).countP
              (fun r => r.edge1 == PyVal.obj a && r.edge2 == PyVal.obj x) = matchCount s a x := by
            rw [List.countP_map]
            unfold matchCount
            rw [List.countP_filter]
            apply List.countP_congr
            intro cs _
            simp [Function.comp, Bool.and_comm]
          rw [hnew]
          simpa using hG a
        · have hnew0 : (List.map
              (fun cs => BRel.mk "Subscribed To Concept Class Instance" cs.edge1 (PyVal.obj c))
              (List.filter (fun cs => isinstVal c cs.edge2) s.classSubscriptions)).countP
              (fun r => r.edge1 == PyVal.obj a && r.edge2 == PyVal.obj x) = 0 := by
            rw [List.countP_eq_zero]
            intro r hr hpr
            obtain ⟨cs, _, he⟩ := List.mem_map.mp hr
            rw [Bool.and_eq_true] at hpr
            have := hpr.2
            rw [← he] at this
            simp only [beq_iff_eq, PyVal.obj.injEq] at this
            exact hxc this.symm
          rw [hnew0]
          simpa using hbase
      · exact hbase
    · exact hbase
  · exact hbase

/-- A subscribe keeps subscriptions unique: it refuses when the pairing
already exists. -/
theorem subUnique_subscribe {s : Blackboard} (hU : SubUnique s) (b c : Obj) :
    SubUnique (s.subscribeToConcept b c).st := by
  intro a x
  have hbase := hU a x
  unfold Blackboard.subscribeToConcept
  split
  · split
    · split
      · split
        · exact hbase
        · next hany =>
          unfold subCount at hbase ⊢
          dsimp only
          rw [List.countP_append]
          by_cases hax : a = b ∧ x = c
          · obtain ⟨h1, h2⟩ := hax
            subst h1
            subst h2
            have h0 : s.conceptSubscriptions.countP
                (fun r => r.edge1 == PyVal.obj a && r.edge2 == PyVal.obj x) = 0 := by
              rw [List.countP_eq_zero]
              intro r hr hpr
              rw [Bool.not_eq_true, List.any_eq_false] at hany
              exact absurd hpr (by simpa using hany r hr)
            rw [h0]
            simp
          · rcases not_and_or.mp hax with hne | hne
            · have hb : (PyVal.obj b == PyVal.obj a) = false := by
                simp only [beq_eq_false_iff_ne, ne_eq, PyVal.obj.injEq]
                exact fun e => hne e.symm
              simp only [List.countP_cons, List.countP_nil, hb, Bool.false_and,
                Bool.and_eq_true, beq_iff_eq]
              simpa using hbase
            · have hc2 : (PyVal.obj c == PyVal.obj x) = false := by
                simp only [beq_eq_false_iff_ne, ne_eq, PyVal.obj.injEq]
                exact fun e => hne e.symm
              simp only [List.countP_cons, List.countP_nil, hc2, Bool.and_false,
                Bool.and_eq_true, beq_iff_eq]
              simpa using hbase
      · exact hbase
    · exact hbase
  · exact hbase

/-- Every guarded operation keeps subscriptions unique. -/
theorem subUnique_applyOp {s : Blackboard} (hInv : BInv s) (hU : SubUnique s) {op : BOp}
    (hG : GoodOp s op) : SubUnique (s.applyOp op).st := by
  cases op with
  | publish b c => exact subUnique_publish hInv hU b c hG
  | unpublish c =>
    intro a x
    unfold subCount
    cases c with
    | none =>
      exact le_trans
        (List.Sublist.countP_le _ (unpublishAll_subs_sublist s s.concepts)) (hU a x)
    | some c =>
      exact le_trans
        (List.Sublist.countP_le _ (unpublishOne_subs_sublist s c)) (hU a x)
  | subscribe b c => exact subUnique_subscribe hU b c
  | unsubscribe a c =>
    intro a' x
    unfold subCount
    exact le_trans
      (List.Sublist.countP_le _ (unsubscribe_subs_sublist s a c)) (hU a' x)
  | subscribeClass a k =>
    intro a' x
    unfold subCount Blackboard.applyOp
    rw [subscribeClass_subs_eq]
    exact hU a' x
  | unsubscribeClass a k =>
    intro a' x
    unfold subCount Blackboard.applyOp
    rw [unsubscribeClass_subs_eq]
    exact hU a' x

/-- Every state reachable through the public operations in which each
publish ran under the `GoodOp` side condition keeps subscriptions
unique. -/
theorem reachableG_subUnique {s : Blackboard} (h : ReachableG s) : SubUnique s := by
  induction h with
  | init nm =>
    intro a c
    simp [subCount, Blackboard.init]
  | step op hprev hG ih =>
    exact subUnique_applyOp (reachable_inv (reachableG_reachable hprev)) ih hG

-- ## Publication shape lemmas

/-- Membership gives `List.contains` (decidable equality). -/
theorem mem_contains_true {α : Type} [DecidableEq α] {l : List α} {a : α}
    (h : a ∈ l) : l.contains a = true := by
  simp only [List.contains_eq_any_beq, List.any_eq_true]
  exact ⟨a, h, by simp⟩

/-- Subscribing to a concept changes neither the published set nor the
publications. -/
theorem subscribe_frame (s : Blackboard) (a c : Obj) :
    (s.subscribeToConcept a c).st.concepts = s.concepts ∧
      (s.subscribeToConcept a c).st.publications = s.publications := by
  unfold Blackboard.subscribeToConcept
  split
  · split
    · split
      · split
        · exact ⟨rfl, rfl⟩
        · exact ⟨rfl, rfl⟩
      · exact ⟨rfl, rfl⟩
    · exact ⟨rfl, rfl⟩
  · exact ⟨rfl, rfl⟩

/-- Unsubscribing changes neither the published set nor the
publications. -/
theorem unsubscribe_frame (s : Blackboard) (a c : Option Obj) :
    (s.unsubscribeFromConcept a c).st.concepts = s.concepts ∧
      (s.unsubscribeFromConcept a c).st.publications = s.publications := by
  unfold Blackboard.unsubscribeFromConcept
  cases c with
  | none =>
    cases a with
    | none => exact ⟨rfl, rfl⟩
    | some a =>
      dsimp only
      split
      · exact ⟨rfl, rfl⟩
      · exact ⟨rfl, rfl⟩
  | some c =>
    dsimp only
    split
    · split
      · cases a with
        | none => exact ⟨rfl, rfl⟩
        | some a =>
          dsimp only
          split
          · split
            · exact ⟨rfl, rfl⟩
            · exact ⟨rfl, rfl⟩
          · exact ⟨rfl, rfl⟩
      · exact ⟨rfl, rfl⟩
    · exact ⟨rfl, rfl⟩

/-- A class subscription changes nothing outside the class
subscriptions. -/
theorem subscribeClass_frame (s : Blackboard) (a : Obj) (k : PyVal) :
    (s.subscribeToConceptClass a k).st.concepts = s.concepts ∧
      (s.subscribeToConceptClass a k).st.publications = s.publications := by
  unfold Blackboard.subscribeToConceptClass
  split
  · cases k with
    | obj o => exact ⟨rfl, rfl⟩
    | cls K =>
      dsimp only
      split
      · split
        · exact ⟨rfl, rfl⟩
        · exact ⟨rfl, rfl⟩
      · exact ⟨rfl, rfl⟩
  · exact ⟨rfl, rfl⟩

/-- A class unsubscription changes nothing outside the class
subscriptions. -/
theorem unsubscribeClass_frame (s : Blackboard) (a : Option Obj) (k : Option PyVal) :
    (s.unsubscribeFromConceptClass a k).st.concepts = s.concepts ∧
      (s.unsubscribeFromConceptClass a k).st.publications = s.publications := by
  unfold Blackboard.unsubscribeFromConceptClass
  cases k with
  | none =>
    cases a with
    | none => exact ⟨rfl, rfl⟩
    | some a =>
      dsimp only
      split
      · exact ⟨rfl, rfl⟩
      · exact ⟨rfl, rfl⟩
  | some v =>
    cases v with
    | obj o => exact ⟨rfl, rfl⟩
    | cls K =>
      dsimp only
      split
      · cases a with
        | none => exact ⟨rfl, rfl⟩
        | some a =>
          dsimp only
          split
          · split
            · exact ⟨rfl, rfl⟩
            · exact ⟨rfl, rfl⟩
          · exact ⟨rfl, rfl⟩
      · exact ⟨rfl, rfl⟩

/-- Publishing keeps every existing publication record. -/
theorem publish_pub_mem {s : Blackboard} {p : BRel} (hp : p ∈ s.publications) (a c : Obj) :
    p ∈ (s.publishConcept a c).st.publications := by
  unfold Blackboard.publishConcept
  split
  · split
    · split
      · exact List.mem_append.mpr (Or.inl hp)
      · exact hp
    · exact hp
  · exact hp

/-- Unpublishing one concept never adds published concepts. -/
theorem unpublishOne_concepts_subset {s : Blackboard} {x : Obj} (c : Obj)
    (h : x ∈ (s.unpublishOne c).st.concepts) : x ∈ s.concepts := by
  unfold Blackboard.unpublishOne at h
  revert h
  split
  · split
    · split
      · exact fun h => List.mem_of_mem_erase h
      · exact fun h => List.mem_of_mem_erase h
    · exact id
  · exact id

/-- Unpublishing a list of concepts never adds published concepts. -/
theorem unpublishAll_concepts_subset {s : Blackboard} {x : Obj} (l : List Obj)
    (h : x ∈ (s.unpublishAll l).st.concepts) : x ∈ s.concepts := by
  induction l generalizing s with
  | nil => exact h
  | cons c rest ih =>
    unfold Blackboard.unpublishAll at h
    revert h
    split
    · exact fun h => unpublishOne_concepts_subset c (ih h)
    · exact fun h => unpublishOne_concepts_subset c h

/-- A publication record for a concept that remains published survives a
single-concept unpublish. -/
theorem unpublishOne_pub_persists {s : Blackboard} (hInv : BInv s) {p : BRel} {n : Obj}
    (hp : p ∈ s.publications) (he : p.edge2 = PyVal.obj n) (c : Obj)
    (hn : n ∈ (s.unpublishOne c).st.concepts) : p ∈ (s.unpublishOne c).st.publications := by
  unfold Blackboard.unpublishOne at hn ⊢
  revert hn
  split
  · split
    · split
      · exact fun _ => hp
      · next pub hfind =>
        intro hn
        have hpubeq : pub.edge2 = PyVal.obj c := by
          have := List.find?_some hfind
          simpa using this
        have hnc : n ≠ c := ((hInv.nodup.mem_erase_iff).mp hn).1
        have hpne : p ≠ pub := by
          intro hpp
          rw [hpp, hpubeq] at he
          injection he with he2
          exact hnc he2.symm
        exact (List.mem_erase_of_ne hpne).mpr hp
    · exact fun _ => hp
  · exact fun _ => hp

/-- A publication record for a concept that remains published survives
unpublishing a list of concepts. -/
theorem unpublishAll_pub_persists {s : Blackboard} (hInv : BInv s) {p : BRel} {n : Obj}
    (hp : p ∈ s.publications) (he : p.edge2 = PyVal.obj n) (l : List Obj)
    (hn : n ∈ (s.unpublishAll l).st.concepts) : p ∈ (s.unpublishAll l).st.publications := by
  induction l generalizing s with
  | nil => exact hp
  | cons c rest ih =>
    unfold Blackboard.unpublishAll at hn ⊢
    revert hn
    split
    · intro hn
      have hn1 : n ∈ (s.unpublishOne c).st.concepts :=
        unpublishAll_concepts_subset rest hn
      exact ih (hInv.unpublishOne c)
        (unpublishOne_pub_persists hInv hp he c hn1) hn
    · exact fun hn => unpublishOne_pub_persists hInv hp he c hn

/-- A publication record for a concept that remains published survives any
public operation. -/
theorem pub_persists {s : Blackboard} (hInv : BInv s) {p : BRel} {n : Obj}
    (hp : p ∈ s.publications) (he : p.edge2 = PyVal.obj n) (op : BOp)
    (hn : n ∈ (s.applyOp op).st.concepts) : p ∈ (s.applyOp op).st.publications := by
  cases op with
  | publish a c => exact publish_pub_mem hp a c
  | unpublish c =>
    cases c with
    | none => exact unpublishAll_pub_persists hInv hp he s.concepts hn
    | some c => exact unpublishOne_pub_persists hInv hp he c hn
  | subscribe a c => exact (subscribe_frame s a c).2.symm ▸ hp
  | unsubscribe a c => exact (unsubscribe_frame s a c).2.symm ▸ hp
  | subscribeClass a k => exact (subscribeClass_frame s a k).2.symm ▸ hp
  | unsubscribeClass a k => exact (unsubscribeClass_frame s a k).2.symm ▸ hp

/-- Under the invariant, any publication record determines the result of
`publisher` for its concept. -/
theorem publisher_eq {s : Blackboard} (hInv : BInv s) {p : BRel} {n : Obj}
    (hp : p ∈ s.publications) (he : p.edge2 = PyVal.obj n) :
    s.publisher n = Except.ok p.edge1 := by
  obtain ⟨c', hc', he'⟩ := hInv.pubMem p hp
  rw [he] at he'
  injection he' with he2
  subst he2
  have hwf : isinstanceB n .ConceptC = true := hInv.conceptsWF n hc'
  have hcont : s.concepts.contains n = true := mem_contains_true hc'
  cases hf : s.publications.find? (fun q => q.edge2 == PyVal.obj n) with
  | none =>
    exfalso
    rw [List.find?_eq_none] at hf
    exact hf p hp (by simp [he])
  | some q =>
    have hple : s.publications.countP (fun q => q.edge2 == PyVal.obj n) ≤ 1 :=
      hInv.pubUnique n
    have hfq := List.find?_some hf
    have hq : q = p :=
      countP_le_one_eq hple (List.mem_of_find?_eq_some hf) hp hfq (by simp [he])
    unfold Blackboard.publisher
    rw [hwf, hcont, hf, hq]
    simp

-- ## Run helpers and concrete objects

/-- Non-membership gives `List.contains = false` (decidable equality). -/
theorem not_mem_contains_false {α : Type} [DecidableEq α] {l : List α} {a : α}
    (h : a ∉ l) : l.contains a = false := by
  cases hcc : l.contains a
  · rfl
  · exact absurd (contains_true_mem hcc) h

/-- Running operations preserves reachability. -/
theorem reachable_runOps_of {s : Blackboard} (h : Reachable s) (l : List BOp) :
    Reachable (runOps s l) := by
  induction l generalizing s with
  | nil => exact h
  | cons op rest ih => exact ih (Reachable.step op h)

/-- Any state produced by running operations on a fresh Blackboard is
reachable. -/
theorem reachable_runOps (nm : String) (l : List BOp) :
    Reachable (runOps (Blackboard.init nm) l) :=
  reachable_runOps_of (Reachable.init nm) l

/-- A concrete agent. -/
def agentA : Obj := ⟨1, .AgentC⟩

/-- Another concrete agent. -/
def agentB : Obj := ⟨2, .AgentC⟩

/-- A concrete base-class concept instance. -/
def conceptX : Obj := ⟨3, .ConceptC⟩

/-- A concrete `Property` instance (an instance of a `Concept` subclass). -/
def propertyP : Obj := ⟨4, .PropertyC⟩

/-- An empty ontology. -/
def ontEmpty : Ontology := ⟨"O", [], []⟩

/-- A relationship whose two edges are both categories (class objects). -/
def relCats : Relationship := ⟨100, "links", PyVal.cls .ConceptC, PyVal.cls .PropertyC⟩

-- ## Claims

/-- C9: `subscribeToConceptClass` leaves the published concepts and the
concept-subscription set unchanged in every case — matching against
category subscriptions happens only inside `publishConcept`, so a category
subscription added after a matching publish never retroactively creates a
concept subscription. -/
theorem c9_subscribeToConceptClass_frame (s : Blackboard) (a : Obj) (k : PyVal) :
    (s.subscribeToConceptClass a k).st.concepts = s.concepts ∧
      (s.subscribeToConceptClass a k).st.conceptSubscriptions = s.conceptSubscriptions :=
  ⟨(subscribeClass_frame s a k).1, subscribeClass_subs_eq s a k⟩

/-- C10: `subscribeToConceptClass` with a well-formed agent and a class
that is not a subclass of `Concept` (such as `int`) returns normally — no
exception, no state change, no signal — because the `issubclass` check has
no `else` branch for that case. -/
theorem c10_subscribeToConceptClass_silent (s : Blackboard) (a : Obj) (K : PyClass)
    (ha : isinstanceB a .AgentC = true) (hK : subclassB K .ConceptC = false) :
    (s.subscribeToConceptClass a (PyVal.cls K)).err = none ∧
      (s.subscribeToConceptClass a (PyVal.cls K)).st = s ∧
      (s.subscribeToConceptClass a (PyVal.cls K)).sigs = [] := by
  simp [Blackboard.subscribeToConceptClass, ha, hK]

/-- Witness for C10 at a fresh Blackboard, agent `agentA` and the class
`int`. -/
theorem c10_subscribeToConceptClass_silent_witness :
    ((Blackboard.init "B").subscribeToConceptClass agentA (PyVal.cls .IntC)).err = none ∧
      ((Blackboard.init "B").subscribeToConceptClass agentA (PyVal.cls .IntC)).st =
        Blackboard.init "B" ∧
      ((Blackboard.init "B").subscribeToConceptClass agentA (PyVal.cls .IntC)).sigs = [] :=
  c10_subscribeToConceptClass_silent (Blackboard.init "B") agentA .IntC (by decide) (by decide)

/-- C1 counterexample: a relationship whose two edges are both categories,
offered to an ontology with no member concepts.  The claim predicts that
category endpoints are exempt from the closure check and the add succeeds;
the code refuses it with the NotClosed error, because the membership test
`edge in self._concepts` is applied to category endpoints too and a class
object is never a member. -/
theorem c1_counterexample :
    relCats.edge1 = PyVal.cls PyClass.ConceptC ∧
      relCats.edge2 = PyVal.cls PyClass.PropertyC ∧
      ontEmpty.concepts = [] ∧
      (ontEmpty.addRelationship relCats).err = some "Relationship is not closed" :=
  ⟨rfl, rfl, rfl, rfl⟩

/-- C1 (amended): for a relationship not already resident,
`addRelationship` raises the NotClosed error iff either endpoint —
concrete instance or category alike — fails the membership test against
the ontology's concepts; a category endpoint never passes that test, so
categories are not exempt. -/
theorem c1_addRelationship_notClosed (o : Ontology) (r : Relationship)
    (hdup : r ∉ o.relationships) :
    ((o.addRelationship r).err = some "Relationship is not closed" ↔
      (memConcepts o.concepts r.edge1 = false ∨ memConcepts o.concepts r.edge2 = false)) ∧
    (∀ K : PyClass, memConcepts o.concepts (PyVal.cls K) = false) := by
  have hc : o.relationships.contains r = false := not_mem_contains_false hdup
  constructor
  · unfold Ontology.addRelationship
    rw [hc]
    by_cases hm : (memConcepts o.concepts r.edge1 && memConcepts o.concepts r.edge2) = true
    · rw [Bool.and_eq_true] at hm
      simp [hm.1, hm.2]
    · rw [Bool.and_eq_true, not_and_or] at hm
      simp only [Bool.not_eq_true] at hm
      rcases hm with hm | hm
      · simp [hm]
      · simp [hm]
  · intro K
    rfl

/-- Witness for the amended C1 at the concrete category-edged
relationship and the empty ontology. -/
theorem c1_addRelationship_notClosed_witness :
    ((ontEmpty.addRelationship relCats).err = some "Relationship is not closed" ↔
      (memConcepts ontEmpty.concepts relCats.edge1 = false ∨
        memConcepts ontEmpty.concepts relCats.edge2 = false)) ∧
    (∀ K : PyClass, memConcepts ontEmpty.concepts (PyVal.cls K) = false) :=
  c1_addRelationship_notClosed ontEmpty relCats (by decide)

/-- C5: for a member concept, `removeConcept` raises the Bound error iff
some resident relationship has `edge1` or `edge2` equal (by identity) to
the concept; when no relationship binds it, the call succeeds and removes
exactly that concept. -/
theorem c5_removeConcept_bound (o : Ontology) (n : Obj)
    (hmem : n ∈ o.concepts) (hwf : isinstanceB n .ConceptC = true)
    (hnd : o.concepts.Nodup) :
    ((o.removeConcept n).err = some "Concept is bound" ↔
      ∃ r ∈ o.relationships, r.edge1 = PyVal.obj n ∨ r.edge2 = PyVal.obj n) ∧
    ((∀ r ∈ o.relationships, ¬(r.edge1 = PyVal.obj n ∨ r.edge2 = PyVal.obj n)) →
      (o.removeConcept n).err = none ∧
        (o.removeConcept n).st.concepts = o.concepts.erase n ∧
        n ∉ (o.removeConcept n).st.concepts ∧
        (o.removeConcept n).st.relationships = o.relationships) := by
  have hcont : o.concepts.contains n = true := mem_contains_true hmem
  cases hb : o.relationships.any
      (fun r => r.edge1 == PyVal.obj n || r.edge2 == PyVal.obj n) with
  | true =>
    have hex : ∃ r ∈ o.relationships, r.edge1 = PyVal.obj n ∨ r.edge2 = PyVal.obj n := by
      rw [List.any_eq_true] at hb
      obtain ⟨r, hr, hpr⟩ := hb
      exact ⟨r, hr, by simpa using hpr⟩
    have hred : o.removeConcept n = ⟨some "Concept is bound", o⟩ := by
      simp only [Ontology.removeConcept, Ontology.conceptIsBound, hwf, if_true, hb]
    constructor
    · rw [hred]
      exact iff_of_true rfl hex
    · intro h
      obtain ⟨r, hr, hpr⟩ := hex
      exact absurd hpr (h r hr)
  | false =>
    have hred : o.removeConcept n =
        ⟨none, { o with concepts := o.concepts.erase n }⟩ := by
      simp only [Ontology.removeConcept, Ontology.conceptIsBound, hwf, if_true, hb, hcont]
    constructor
    · rw [hred]
      simp only [Option.some.injEq]
      constructor
      · intro h
        exact absurd h (by simp)
      · rintro ⟨r, hr, hor⟩
        rw [List.any_eq_false] at hb
        exact absurd (by rw [Bool.or_eq_true, beq_iff_eq, beq_iff_eq]; exact hor) (hb r hr)
    · intro _
      rw [hred]
      refine ⟨rfl, rfl, ?_, rfl⟩
      intro hmm
      exact ((hnd.mem_erase_iff).mp hmm).1 rfl

/-- An ontology holding the single unbound concept `conceptX`. -/
def ontX : Ontology := ⟨"O", [conceptX], []⟩

/-- Witness for C5 at the one-concept, no-relationship ontology. -/
theorem c5_removeConcept_bound_witness :
    (((ontX.removeConcept conceptX).err = some "Concept is bound" ↔
      ∃ r ∈ ontX.relationships,
        r.edge1 = PyVal.obj conceptX ∨ r.edge2 = PyVal.obj conceptX) ∧
    ((∀ r ∈ ontX.relationships,
        ¬(r.edge1 = PyVal.obj conceptX ∨ r.edge2 = PyVal.obj conceptX)) →
      (ontX.removeConcept conceptX).err = none ∧
        (ontX.removeConcept conceptX).st.concepts = ontX.concepts.erase conceptX ∧
        conceptX ∉ (ontX.removeConcept conceptX).st.concepts ∧
        (ontX.removeConcept conceptX).st.relationships = ontX.relationships)) :=
  c5_removeConcept_bound ontX conceptX (by decide) (by decide) (by decide)

/-- The check loop of `removeAllConcepts`, characterised: it succeeds iff
no member concept is bound and raises the Bound error iff some member
is. -/
theorem checkUnbound_spec (o : Ontology) (l : List Obj) :
    (∀ c ∈ l, isinstanceB c .ConceptC = true) →
    ((checkUnbound o l = Except.ok () ↔
        ∀ c ∈ l, o.relationships.any
          (fun r => r.edge1 == PyVal.obj c || r.edge2 == PyVal.obj c) = false) ∧
      (checkUnbound o l = Except.error "Concept is bound" ↔
        ∃ c ∈ l, o.relationships.any
          (fun r => r.edge1 == PyVal.obj c || r.edge2 == PyVal.obj c) = true)) := by
  induction l with
  | nil =>
    intro _
    constructor
    · simp [checkUnbound]
    · simp [checkUnbound]
  | cons c rest ih =>
    intro hwf
    have hwfc := hwf c (List.mem_cons_self c rest)
    obtain ⟨ih1, ih2⟩ := ih (fun x hx => hwf x (List.mem_cons_of_mem c hx))
    cases hb : o.relationships.any
        (fun r => r.edge1 == PyVal.obj c || r.edge2 == PyVal.obj c) with
    | true =>
      have hred : checkUnbound o (c :: rest) = Except.error "Concept is bound" := by
        simp only [checkUnbound, Ontology.conceptIsBound, hwfc, if_true, hb]
      rw [hred]
      constructor
      · constructor
        · intro h
          exact absurd h (by simp)
        · intro h
          exact absurd hb (by simp [h c (List.mem_cons_self c rest)])
      · constructor
        · intro _
          exact ⟨c, List.mem_cons_self c rest, hb⟩
        · intro _
          rfl
    | false =>
      have hred : checkUnbound o (c :: rest) = checkUnbound o rest := by
        simp only [checkUnbound, Ontology.conceptIsBound, hwfc, if_true, hb]
      rw [hred]
      constructor
      · rw [ih1]
        constructor
        · intro h
          intro x hx
          rcases List.mem_cons.mp hx with hx | hx
          · rw [hx]
            exact hb
          · exact h x hx
        · intro h x hx
          exact h x (List.mem_cons_of_mem c hx)
      · rw [ih2]
        constructor
        · rintro ⟨x, hx, hxb⟩
          exact ⟨x, List.mem_cons_of_mem c hx, hxb⟩
        · rintro ⟨x, hx, hxb⟩
          rcases List.mem_cons.mp hx with hx | hx
          · subst hx
            exact absurd hxb (by simp [hb])
          · exact ⟨x, hx, hxb⟩

/-- C6: `removeAllConcepts` is all-or-nothing — when some member concept
is bound by a resident relationship it raises the Bound error and returns
the state exactly as it was; otherwise it succeeds, emptying the concepts
and keeping the relationships. -/
theorem c6_removeAllConcepts_atomic (o : Ontology)
    (hwf : ∀ c ∈ o.concepts, isinstanceB c .ConceptC = true) :
    ((∃ c ∈ o.concepts, ∃ r ∈ o.relationships,
        r.edge1 = PyVal.obj c ∨ r.edge2 = PyVal.obj c) →
      (o.removeAllConcepts).err = some "Concept is bound" ∧
        (o.removeAllConcepts).st = o) ∧
    ((∀ c ∈ o.concepts, ∀ r ∈ o.relationships,
        ¬(r.edge1 = PyVal.obj c ∨ r.edge2 = PyVal.obj c)) →
      (o.removeAllConcepts).err = none ∧
        (o.removeAllConcepts).st.concepts = [] ∧
        (o.removeAllConcepts).st.relationships = o.relationships) := by
  obtain ⟨hok, herr⟩ := checkUnbound_spec o o.concepts hwf
  constructor
  · rintro ⟨c, hc, r, hr, hor⟩
    have hb : o.relationships.any
        (fun x => x.edge1 == PyVal.obj c || x.edge2 == PyVal.obj c) = true := by
      rw [List.any_eq_true]
      exact ⟨r, hr, by simpa using hor⟩
    have hchk := herr.mpr ⟨c, hc, hb⟩
    unfold Ontology.removeAllConcepts
    rw [hchk]
    exact ⟨rfl, rfl⟩
  · intro h
    have hchk : checkUnbound o o.concepts = Except.ok () := by
      rw [hok]
      intro c hc
      rw [List.any_eq_false]
      intro r hr
      simpa using h c hc r hr
    unfold Ontology.removeAllConcepts
    rw [hchk]
    exact ⟨rfl, rfl, rfl⟩

/-- Witness for C6 at the one-concept, no-relationship ontology. -/
theorem c6_removeAllConcepts_atomic_witness :
    ((∃ c ∈ ontX.concepts, ∃ r ∈ ontX.relationships,
        r.edge1 = PyVal.obj c ∨ r.edge2 = PyVal.obj c) →
      (ontX.removeAllConcepts).err = some "Concept is bound" ∧
        (ontX.removeAllConcepts).st = ontX) ∧
    ((∀ c ∈ ontX.concepts, ∀ r ∈ ontX.relationships,
        ¬(r.edge1 = PyVal.obj c ∨ r.edge2 = PyVal.obj c)) →
      (ontX.removeAllConcepts).err = none ∧
        (ontX.removeAllConcepts).st.concepts = [] ∧
        (ontX.removeAllConcepts).st.relationships = ontX.relationships) :=
  c6_removeAllConcepts_atomic ontX (by decide)

/-- C7: in every reachable Blackboard state, every concept subscription
refers to a currently published concept — `subscribeToConcept` rejects
unpublished concepts, `publishConcept` auto-subscribes only to the concept
being published, and `unpublishConcept` removes every subscription to the
withdrawn concept. -/
theorem c7_subscriptions_reference_published {s : Blackboard} (hs : Reachable s) :
    ∀ r ∈ s.conceptSubscriptions, ∃ c, r.edge2 = PyVal.obj c ∧ c ∈ s.concepts := by
  intro r hr
  obtain ⟨c, hc, he⟩ := (reachable_inv hs).subPub r hr
  exact ⟨c, he, hc⟩

/-- The concrete run used by the C7 witness: publish `conceptX`, then
subscribe `agentA` to it. -/
def c7State : Blackboard :=
  runOps (Blackboard.init "B")
    [BOp.publish agentB conceptX, BOp.subscribe agentA conceptX]

/-- The subscription record created by that run. -/
def c7Sub : BRel := ⟨"Subscribed To Concept", PyVal.obj agentA, PyVal.obj conceptX⟩

/-- Witness for C7 at the concrete reachable state and its subscription. -/
theorem c7_subscriptions_reference_published_witness :
    ∃ c, c7Sub.edge2 = PyVal.obj c ∧ c ∈ c7State.concepts :=
  c7_subscriptions_reference_published (reachable_runOps "B"
    [BOp.publish agentB conceptX, BOp.subscribe agentA conceptX]) c7Sub (by decide)

/-- The concrete run refuting C2: `agentA` subscribes to the categories
`Concept` and `Property`, then `agentB` publishes a `Property` instance,
which matches both category subscriptions and creates two subscriptions
pairing `agentA` with the instance. -/
def c2State : Blackboard :=
  runOps (Blackboard.init "B")
    [BOp.subscribeClass agentA (PyVal.cls .ConceptC),
     BOp.subscribeClass agentA (PyVal.cls .PropertyC),
     BOp.publish agentB propertyP]

/-- C2 counterexample: a state reachable through the public operations in
which `agentA` holds two subscriptions to the published concept
`propertyP`, contradicting the claimed at-most-one invariant. -/
theorem c2_counterexample :
    Reachable c2State ∧ subCount c2State agentA propertyP = 2 :=
  ⟨reachable_runOps "B"
    [BOp.subscribeClass agentA (PyVal.cls .ConceptC),
     BOp.subscribeClass agentA (PyVal.cls .PropertyC),
     BOp.publish agentB propertyP], by decide⟩

/-- C2 (amended): in every state reachable through the public operations
in which every publish ran while each agent held at most one class
subscription matching the published concept, an agent holds at most one
subscription to a given concept.  (Publish-time auto-subscription performs
no duplicate check: it creates one subscription per matching class
subscription, which is the only way to exceed one.) -/
theorem c2_subscription_unique {s : Blackboard} (hs : ReachableG s) (a c : Obj) :
    subCount s a c ≤ 1 :=
  reachableG_subUnique hs a c

/-- The guarded concrete run used by the C2 witness. -/
def c2wState : Blackboard :=
  ((Blackboard.init "B").applyOp (BOp.subscribeClass agentA (PyVal.cls .ConceptC))).st

/-- The run behind the C2 witness is guarded: its only publish happens
while one class subscription is registered. -/
theorem c2wState_reachableG :
    ReachableG ((c2wState.applyOp (BOp.publish agentB conceptX)).st) := by
  apply ReachableG.step
  · apply ReachableG.step
    · exact ReachableG.init "B"
    · trivial
  · intro a
    exact le_trans (List.countP_le_length _) (by decide)

/-- Witness for the amended C2 at the concrete guarded state. -/
theorem c2_subscription_unique_witness :
    subCount ((c2wState.applyOp (BOp.publish agentB conceptX)).st) agentA conceptX ≤ 1 :=
  c2_subscription_unique c2wState_reachableG agentA conceptX

/-- C3: an agent holding a class subscription `(A, C)` is auto-subscribed
when another agent publishes an instance of `C` (or of a subclass):
after the publish, the subscription record `(A, n)` exists and `A` is
among `subscribers(n)`. -/
theorem c3_category_subscription_manifest {s : Blackboard} {cs : BRel} {A B n : Obj}
    {C : PyClass}
    (hcs : cs ∈ s.classSubscriptions) (h1 : cs.edge1 = PyVal.obj A)
    (h2 : cs.edge2 = PyVal.cls C) (hmatch : subclassB n.cls C = true)
    (hagent : isinstanceB B .AgentC = true) (hconc : isinstanceB n .ConceptC = true)
    (hnew : s.concepts.contains n = false) :
    (s.publishConcept B n).err = none ∧
    BRel.mk "Subscribed To Concept Class Instance" (PyVal.obj A) (PyVal.obj n) ∈
      (s.publishConcept B n).st.conceptSubscriptions ∧
    ∃ agents, (s.publishConcept B n).st.subscribers (some n) = Except.ok agents ∧
      PyVal.obj A ∈ agents := by
  have hsub2 : isinstVal n cs.edge2 = true := by
    rw [h2]
    simpa [isinstVal] using hmatch
  have hpub : s.publishConcept B n =
      { err := none,
        st := { s with
          concepts := s.concepts ++ [n],
          publications :=
            s.publications ++ [⟨"Published Concept", PyVal.obj B, PyVal.obj n⟩],
          conceptSubscriptions := s.conceptSubscriptions ++
            (s.classSubscriptions.filter (fun x => isinstVal n x.edge2)).map
              (fun x => ⟨"Subscribed To Concept Class Instance", x.edge1, PyVal.obj n⟩) },
        sigs :=
          ⟨PyVal.obj B, ⟨"Published Concept", PyVal.obj B, PyVal.obj n⟩⟩ ::
            ((s.classSubscriptions.filter (fun x => isinstVal n x.edge2)).map
              (fun x => ⟨"Subscribed To Concept Class Instance", x.edge1, PyVal.obj n⟩)).map
              (fun x => ⟨x.edge1, x⟩) } := by
    simp only [Blackboard.publishConcept, hagent, hconc, hnew, if_true]
  have hmemsub : BRel.mk "Subscribed To Concept Class Instance" (PyVal.obj A) (PyVal.obj n) ∈
      (s.publishConcept B n).st.conceptSubscriptions := by
    rw [hpub]
    apply List.mem_append.mpr
    right
    apply List.mem_map.mpr
    refine ⟨cs, List.mem_filter.mpr ⟨hcs, hsub2⟩, ?_⟩
    rw [h1]
  refine ⟨by rw [hpub], hmemsub, ?_⟩
  have hcontn : ((s.publishConcept B n).st.concepts).contains n = true := by
    apply mem_contains_true
    rw [hpub]
    exact List.mem_append.mpr (Or.inr (List.mem_singleton.mpr rfl))
  refine ⟨((s.publishConcept B n).st.conceptSubscriptions.filter
      (fun x => x.edge2 == PyVal.obj n)).map (fun x => x.edge1), ?_, ?_⟩
  · unfold Blackboard.subscribers
    dsimp only
    rw [hconc, hcontn]
    simp
  · apply List.mem_map.mpr
    refine ⟨BRel.mk "Subscribed To Concept Class Instance" (PyVal.obj A) (PyVal.obj n),
      List.mem_filter.mpr ⟨hmemsub, by simp⟩, rfl⟩

/-- Explicit form of a successful single-concept unpublish. -/
theorem unpublishOne_success {s : Blackboard} {n : Obj} {q : BRel}
    (hn : isinstanceB n .ConceptC = true) (hm : s.concepts.contains n = true)
    (hf : s.publications.find? (fun p => p.edge2 == PyVal.obj n) = some q) :
    s.unpublishOne n =
      { err := none,
        st := { s with
          concepts := s.concepts.erase n,
          publications := s.publications.erase q,
          conceptSubscriptions :=
            s.conceptSubscriptions.filter (fun x => !(x.edge2 == PyVal.obj n)) },
        sigs := ⟨q.edge1, ⟨"Unpublished Concept", q.edge1, q.edge2⟩⟩ ::
          (s.conceptSubscriptions.filter (fun x => x.edge2 == PyVal.obj n)).map
            (fun x => ⟨x.edge1, ⟨"Unsubscribed From Concept", x.edge1, x.edge2⟩⟩) } := by
  simp only [Blackboard.unpublishOne, hn, hm, if_true, hf]

/-- Unpublishing is dispatched to the single-concept path when a concept
is given. -/
theorem unpublishConcept_some (s : Blackboard) (c : Obj) :
    s.unpublishConcept (some c) = s.unpublishOne c := rfl

/-- C8: in a reachable state, at most one publication record exists per
concept; a successful publish makes `publisher` answer the publishing
agent; an existing publication keeps determining `publisher` across any
operation after which the concept is still published; and publishing an
already published concept raises the AlreadyExists error and leaves the
state unchanged. -/
theorem c8_publication_unique {s : Blackboard} (hreach : Reachable s) (a n : Obj) :
    pubCount s n ≤ 1 ∧
    ((s.publishConcept a n).err = none →
      (s.publishConcept a n).st.publisher n = Except.ok (PyVal.obj a)) ∧
    (∀ p ∈ s.publications, p.edge2 = PyVal.obj n →
      s.publisher n = Except.ok p.edge1 ∧
      ∀ op : BOp, n ∈ (s.applyOp op).st.concepts →
        (s.applyOp op).st.publisher n = Except.ok p.edge1) ∧
    (isinstanceB a .AgentC = true → n ∈ s.concepts →
      (s.publishConcept a n).err = some "Concept already exists" ∧
      (s.publishConcept a n).st = s) := by
  have hInv := reachable_inv hreach
  refine ⟨hInv.pubUnique n, ?_, ?_, ?_⟩
  · intro hok
    have hInv2 : BInv (s.publishConcept a n).st :=
      reachable_inv (Reachable.step (BOp.publish a n) hreach)
    unfold Blackboard.publishConcept at hok
    split at hok
    · split at hok
      · split at hok
        · next ha hc hm =>
          have hpr : s.publishConcept a n =
              { err := none,
                st := { s with
                  concepts := s.concepts ++ [n],
                  publications := s.publications ++
                    [⟨"Published Concept", PyVal.obj a, PyVal.obj n⟩],
                  conceptSubscriptions := s.conceptSubscriptions ++
                    (s.classSubscriptions.filter (fun x => isinstVal n x.edge2)).map
                      (fun x =>
                        ⟨"Subscribed To Concept Class Instance", x.edge1, PyVal.obj n⟩) },
                sigs := ⟨PyVal.obj a, ⟨"Published Concept", PyVal.obj a, PyVal.obj n⟩⟩ ::
                  ((s.classSubscriptions.filter (fun x => isinstVal n x.edge2)).map
                    (fun x =>
                      ⟨"Subscribed To Concept Class Instance", x.edge1, PyVal.obj n⟩)).map
                    (fun x => ⟨x.edge1, x⟩) } := by
            simp only [Blackboard.publishConcept, ha, hc, hm, if_true]
          have hmem : (⟨"Published Concept", PyVal.obj a, PyVal.obj n⟩ : BRel) ∈
              (s.publishConcept a n).st.publications := by
            rw [hpr]
            exact List.mem_append.mpr (Or.inr (List.mem_singleton.mpr rfl))
          exact publisher_eq hInv2 hmem rfl
        · simp at hok
      · simp at hok
    · simp at hok
  · intro p hp he
    refine ⟨publisher_eq hInv hp he, ?_⟩
    intro op hn2
    have hInv2 := reachable_inv (Reachable.step op hreach)
    exact publisher_eq hInv2 (pub_persists hInv hp he op hn2) he
  · intro ha hmem
    have hc : isinstanceB n .ConceptC = true := hInv.conceptsWF n hmem
    have hcont : s.concepts.contains n = true := mem_contains_true hmem
    constructor
    · simp [Blackboard.publishConcept, ha, hc, hcont, hmem]
    · simp [Blackboard.publishConcept, ha, hc, hcont, hmem]

/-- The run used by the C3 witness: `agentA` subscribes to the category
`Concept` on a fresh Blackboard. -/
def c3State : Blackboard :=
  runOps (Blackboard.init "B") [BOp.subscribeClass agentA (PyVal.cls .ConceptC)]

/-- The class subscription that run registers. -/
def c3ClassSub : BRel := ⟨"Subscribed To Concept Class", PyVal.obj agentA, PyVal.cls .ConceptC⟩

/-- Witness for C3: `agentB` publishes the `Property` instance
`propertyP` — an instance of a subclass of the subscribed category — and
`agentA` ends up subscribed to it. -/
theorem c3_category_subscription_manifest_witness :
    (c3State.publishConcept agentB propertyP).err = none ∧
    BRel.mk "Subscribed To Concept Class Instance" (PyVal.obj agentA) (PyVal.obj propertyP) ∈
      (c3State.publishConcept agentB propertyP).st.conceptSubscriptions ∧
    ∃ agents, (c3State.publishConcept agentB propertyP).st.subscribers (some propertyP) =
      Except.ok agents ∧ PyVal.obj agentA ∈ agents :=
  @c3_category_subscription_manifest c3State c3ClassSub agentA agentB propertyP .ConceptC
    (by decide) rfl rfl (by decide) (by decide) (by decide) (by decide)

/-- The run used by the C8 witness: `agentB` publishes `conceptX` on a
fresh Blackboard. -/
def c8State : Blackboard :=
  runOps (Blackboard.init "B") [BOp.publish agentB conceptX]

/-- Witness for C8 at the concrete published state. -/
theorem c8_publication_unique_witness :
    pubCount c8State conceptX ≤ 1 ∧
    ((c8State.publishConcept agentA conceptX).err = none →
      (c8State.publishConcept agentA conceptX).st.publisher conceptX =
        Except.ok (PyVal.obj agentA)) ∧
    (∀ p ∈ c8State.publications, p.edge2 = PyVal.obj conceptX →
      c8State.publisher conceptX = Except.ok p.edge1 ∧
      ∀ op : BOp, conceptX ∈ (c8State.applyOp op).st.concepts →
        (c8State.applyOp op).st.publisher conceptX = Except.ok p.edge1) ∧
    (isinstanceB agentA .AgentC = true → conceptX ∈ c8State.concepts →
      (c8State.publishConcept agentA conceptX).err = some "Concept already exists" ∧
      (c8State.publishConcept agentA conceptX).st = c8State) :=
  c8_publication_unique (reachable_runOps "B" [BOp.publish agentB conceptX]) agentA conceptX

/-- C4: after a successful `subscribeToConcept(A, n)`, calling
`unpublishConcept(n)` succeeds, removes `n` from the published concepts,
removes every subscription to `n`, delivers exactly one withdrawal signal
to `A`, and leaves `subscribers(n)` raising the NotFound error; and
`unpublishConcept` of a concept that is not published raises the NotFound
error. -/
theorem c4_unpublish_cascade {s0 : Blackboard} (hreach : Reachable s0) (A n : Obj)
    (hok : (s0.subscribeToConcept A n).err = none) :
    ((s0.subscribeToConcept A n).st.unpublishConcept (some n)).err = none ∧
    n ∉ ((s0.subscribeToConcept A n).st.unpublishConcept (some n)).st.concepts ∧
    ((s0.subscribeToConcept A n).st.unpublishConcept
        (some n)).st.conceptSubscriptions.countP
      (fun r => r.edge2 == PyVal.obj n) = 0 ∧
    ((s0.subscribeToConcept A n).st.unpublishConcept (some n)).sigs.countP
      (fun g => g.receiver == PyVal.obj A &&
        g.message.name == "Unsubscribed From Concept") = 1 ∧
    ((s0.subscribeToConcept A n).st.unpublishConcept (some n)).st.subscribers (some n) =
      Except.error "Concept does not exist" ∧
    (∀ m : Obj, isinstanceB m .ConceptC = true → m ∉ s0.concepts →
      (s0.unpublishConcept (some m)).err = some "Concept does not exist") := by
  have hInv := reachable_inv hreach
  have hnever : ∀ m : Obj, isinstanceB m .ConceptC = true → m ∉ s0.concepts →
      (s0.unpublishConcept (some m)).err = some "Concept does not exist" := by
    intro m hmwf hmnot
    have hcontm := not_mem_contains_false hmnot
    rw [unpublishConcept_some]
    simp [Blackboard.unpublishOne, hmwf, hcontm, hmnot]
  unfold Blackboard.subscribeToConcept at hok
  split at hok
  case isFalse => simp at hok
  case isTrue hA =>
    split at hok
    case isFalse => simp at hok
    case isTrue hn =>
      split at hok
      case isFalse => simp at hok
      case isTrue hm =>
        split at hok
        case isTrue => simp at hok
        case isFalse hany =>
          have hany2 : s0.conceptSubscriptions.any
              (fun r => r.edge1 == PyVal.obj A && r.edge2 == PyVal.obj n) = false := by
            cases hq : s0.conceptSubscriptions.any
                (fun r => r.edge1 == PyVal.obj A && r.edge2 == PyVal.obj n)
            · rfl
            · exact absurd hq hany
          have hs1 : s0.subscribeToConcept A n =
              { err := none,
                st := { s0 with conceptSubscriptions := s0.conceptSubscriptions ++
                  [⟨"Subscribed To Concept", PyVal.obj A, PyVal.obj n⟩] },
                sigs := [⟨PyVal.obj A,
                  ⟨"Subscribed To Concept", PyVal.obj A, PyVal.obj n⟩⟩] } := by
            simp only [Blackboard.subscribeToConcept, hA, hn, hm, if_true, hany2,
              Bool.false_eq_true, if_false]
          obtain ⟨p, hp, hpe⟩ := hInv.pubEx n (contains_true_mem hm)
          cases hf : s0.publications.find? (fun x => x.edge2 == PyVal.obj n) with
          | none =>
            exfalso
            rw [List.find?_eq_none] at hf
            exact hf p hp (by simp [hpe])
          | some q =>
            have hu : (s0.subscribeToConcept A n).st.unpublishConcept (some n) =
                { err := none,
                  st := { s0 with
                    concepts := s0.concepts.erase n,
                    publications := s0.publications.erase q,
                    conceptSubscriptions := (s0.conceptSubscriptions ++
                      [BRel.mk "Subscribed To Concept" (PyVal.obj A) (PyVal.obj n)]).filter
                        (fun x : BRel => !(x.edge2 == PyVal.obj n)) },
                  sigs := Signal.mk q.edge1
                      (BRel.mk "Unpublished Concept" q.edge1 q.edge2) ::
                    ((s0.conceptSubscriptions ++
                      [BRel.mk "Subscribed To Concept" (PyVal.obj A) (PyVal.obj n)]).filter
                        (fun x : BRel => x.edge2 == PyVal.obj n)).map
                      (fun x : BRel => Signal.mk x.edge1
                        (BRel.mk "Unsubscribed From Concept" x.edge1 x.edge2)) } := by
              rw [hs1, unpublishConcept_some]
              exact unpublishOne_success hn hm hf
            refine ⟨?_, ?_, ?_, ?_, ?_, hnever⟩
            · rw [hu]
            · rw [hu]
              intro hmm
              exact ((hInv.nodup.mem_erase_iff).mp hmm).1 rfl
            · rw [hu]
              dsimp only
              rw [List.countP_filter, List.countP_eq_zero]
              intro x hx
              simp
            · rw [hu]
              dsimp only
              have hname : (("Unpublished Concept" : String) ==
                  "Unsubscribed From Concept") = false := by decide
              rw [List.countP_cons_of_neg]
              swap
              · simp [hname]
              rw [List.countP_map]
              have hcomp : ((fun g : Signal => g.receiver == PyVal.obj A &&
                    g.message.name == "Unsubscribed From Concept") ∘
                  (fun x : BRel => Signal.mk x.edge1
                    (BRel.mk "Unsubscribed From Concept" x.edge1 x.edge2))) =
                  (fun x : BRel => x.edge1 == PyVal.obj A) := by
                funext x
                simp [Function.comp]
              rw [hcomp, List.countP_filter, List.countP_append]
              have h0 : s0.conceptSubscriptions.countP
                  (fun x => x.edge1 == PyVal.obj A && x.edge2 == PyVal.obj n) = 0 := by
                rw [List.countP_eq_zero]
                rw [List.any_eq_false] at hany2
                exact fun x hx => by simpa using hany2 x hx
              rw [h0]
              simp
            · rw [hu]
              dsimp only
              have hcf : (s0.concepts.erase n).contains n = false := by
                apply not_mem_contains_false
                intro hmm
                exact ((hInv.nodup.mem_erase_iff).mp hmm).1 rfl
              unfold Blackboard.subscribers
              dsimp only
              rw [hn, hcf]
              simp

/-- Witness for C4: on the Blackboard where `agentB` published `conceptX`,
`agentA` subscribes and the concept is then unpublished. -/
theorem c4_unpublish_cascade_witness :
    ((c8State.subscribeToConcept agentA conceptX).st.unpublishConcept (some conceptX)).err
        = none ∧
    conceptX ∉
      ((c8State.subscribeToConcept agentA conceptX).st.unpublishConcept
        (some conceptX)).st.concepts ∧
    ((c8State.subscribeToConcept agentA conceptX).st.unpublishConcept
        (some conceptX)).st.conceptSubscriptions.countP
      (fun r => r.edge2 == PyVal.obj conceptX) = 0 ∧
    ((c8State.subscribeToConcept agentA conceptX).st.unpublishConcept
        (some conceptX)).sigs.countP
      (fun g => g.receiver == PyVal.obj agentA &&
        g.message.name == "Unsubscribed From Concept") = 1 ∧
    ((c8State.subscribeToConcept agentA conceptX).st.unpublishConcept
        (some conceptX)).st.subscribers (some conceptX) =
      Except.error "Concept does not exist" ∧
    (∀ m : Obj, isinstanceB m .ConceptC = true → m ∉ c8State.concepts →
      (c8State.unpublishConcept (some m)).err = some "Concept does not exist") :=
  c4_unpublish_cascade (reachable_runOps "B" [BOp.publish agentB conceptX]) agentA conceptX
    (by decide)
